import Mathlib

/-!
Shallow embedding of parts of the mlpack feed-forward network engine
(`src/mlpack/methods/ann/ffn_impl.hpp`) and of the dataset mapper
(`src/mlpack/core/data/dataset_mapper_impl.hpp`), together with theorems
settling the specification claims about them.

Sizes and offsets (`size_t` in the source) are modelled as `Nat`; loss
values (`double`) are modelled as `Int`, since the claims about them are
structural (which terms are summed, how often) rather than about rounding.
`std::floor(0.1 * n)` on a `size_t` count `n` is modelled as `n / 10`
(natural floor division): for counts in the exactly-representable range of
`double` the two agree, because the double nearest `0.1` exceeds `1/10` by
less than one part in `2 ^ 52`, so the product never crosses the next
integer.
-/

namespace Mlpack

/-! ## Definitions

### FFN::SetLayerMemory (ffn_impl.hpp, lines 643-665)

The pass walks the layers in order keeping a running offset
`totalWeightSize`.  For each layer it first asserts
`totalWeightSize + weightSize <= parameters.n_elem`, then calls
`SetWeights(parameters.memptr() + totalWeightSize)` — i.e. hands the layer a
view starting at the running offset whose extent is its `WeightSize()` — and
advances the offset.  After the loop it asserts
`totalWeightSize == parameters.n_elem`.

We embed the pass as a function from the list of per-layer weight sizes and
the parameter-buffer element count to: the list of `(offset, size)` views
assigned, the final running offset, and whether every assertion held. -/

/-- The loop of `FFN::SetLayerMemory`: `nElem` is `parameters.n_elem`, the
second argument the remaining layers' weight sizes, the third the running
offset `totalWeightSize`. -/
def setLayerMemoryLoop (nElem : Nat) : List Nat → Nat → List (Nat × Nat) × Nat × Bool
  | [], off => ([], off, true)
  | w :: ws, off =>
      let stepOk := decide (off + w ≤ nElem)
      let r := setLayerMemoryLoop nElem ws (off + w)
      ((off, w) :: r.1, r.2.1, stepOk && r.2.2)

/-- `FFN::SetLayerMemory`: runs the loop from offset 0 and conjoins the final
assertion `totalWeightSize == parameters.n_elem`. -/
def setLayerMemory (ws : List Nat) (nElem : Nat) : List (Nat × Nat) × Nat × Bool :=
  let r := setLayerMemoryLoop nElem ws 0
  (r.1, r.2.1, r.2.2 && (r.2.1 == nElem))

/-! ### FFN::InitializeForwardPassMemory (ffn_impl.hpp, lines 851-891) -/

/-- `totalOutputSize` as recomputed at the start of
`InitializeForwardPassMemory` (lines 856-863): the sum of every layer's
`OutputSize()`. -/
def totalOutputSizeOf (outSizes : List Nat) : Nat := outSizes.sum

/-- `totalInputSize` as recomputed at the start of
`InitializeForwardPassMemory` (lines 854-863): the sum of the input
dimensions plus the output size of every layer — the guard
`i < network.size()` inside the loop is always true, so the final layer's
output size is included as well. -/
def totalInputSizeOf (inputDims outSizes : List Nat) : Nat :=
  inputDims.sum + outSizes.sum

/-- The output-arena reallocation test (lines 869-870): grow when the
requested `batchSize * totalOutputSize` exceeds `layerOutputMatrix.n_elem`,
shrink when it is strictly below one tenth of `layerOutputMatrix.n_elem`. -/
def forwardRealloc (batchSize totalOutputSize cap : Nat) : Bool :=
  (batchSize * totalOutputSize > cap) || (batchSize * totalOutputSize < cap / 10)

/-- The resulting element count of `layerOutputMatrix` after
`InitializeForwardPassMemory`: reallocated to exactly the requested size when
the test fires, otherwise unchanged (the buffer is reused). -/
def initializeForwardPassMemory (batchSize totalOutputSize cap : Nat) : Nat :=
  if forwardRealloc batchSize totalOutputSize cap then
    batchSize * totalOutputSize
  else cap

/-- The per-layer aliasing loop of `InitializeForwardPassMemory` (lines
878-890): layer views `(start, rows, cols)` are sliced at the running offset
with shape `(OutputSize(), batchSize)`, advancing by
`batchSize * OutputSize()`.  The arena capacity is not an input: the views
are re-sliced the same way whether or not the buffer was reallocated. -/
def forwardAliasLoop (batchSize : Nat) : List Nat → Nat → List (Nat × Nat × Nat)
  | [], _ => []
  | s :: rest, start =>
      (start, s, batchSize) :: forwardAliasLoop batchSize rest (start + batchSize * s)

/-! ### FFN::InitializeBackwardPassMemory (ffn_impl.hpp, lines 905-936) -/

/-- The delta-arena reallocation test (lines 913-914): grow when
`batchSize * totalInputSize` exceeds `deltaMatrix.n_elem`; the shrink branch
compares against one tenth of `layerOutputMatrix.n_elem` — the OUTPUT
arena's element count, not the delta arena's. -/
def backwardRealloc (batchSize totalInputSize deltaCap outputCap : Nat) : Bool :=
  (batchSize * totalInputSize > deltaCap) ||
  (batchSize * totalInputSize < outputCap / 10)

/-- The resulting element count of `deltaMatrix` after
`InitializeBackwardPassMemory`. -/
def initializeBackwardPassMemory (batchSize totalInputSize deltaCap outputCap : Nat) : Nat :=
  if backwardRealloc batchSize totalInputSize deltaCap outputCap then
    batchSize * totalInputSize
  else deltaCap

/-- The reallocation condition claim C3 asserts: the same hysteresis keyed
only on the delta arena's own element count (written from the claim, for
comparison with `backwardRealloc`). -/
def backwardReallocClaim (batchSize totalInputSize deltaCap : Nat) : Bool :=
  (batchSize * totalInputSize > deltaCap) ||
  (batchSize * totalInputSize < deltaCap / 10)

/-! ### FFN::Forward input-shape check (ffn_impl.hpp, lines 312-344) -/

/-- The declared input dimensions used by `FFN::Forward`: when
`inputDimensions` is empty it is first set to the single flat dimension
`inputs.n_rows` (lines 318-319). -/
def forwardDeclaredDims (inputDimensions : List Nat) (nRows : Nat) : List Nat :=
  if inputDimensions = [] then [nRows] else inputDimensions

/-- The input-shape assertion of `FFN::Forward` (lines 321-326):
`totalInputSize` is `std::accumulate(inputDimensions.begin(), ..., 0)` — the
SUM of the per-axis dimensions — and the assert requires it to equal
`inputs.n_rows`.  Returns `true` when the assertion passes. -/
def forwardShapeCheck (inputDimensions : List Nat) (nRows : Nat) : Bool :=
  (forwardDeclaredDims inputDimensions nRows).sum == nRows

/-! ### FFN::Evaluate / FFN::EvaluateWithGradient (ffn_impl.hpp, 490-583) -/

/-- `FFN::Evaluate(parameters, begin, batchSize, deterministic)` (lines
490-518): runs the forward pass, then returns the output-layer loss for the
batch plus each layer's `Loss()`, each counted once (lines 511-515). -/
def ffnEvaluate (outputLoss : Int) (layerLosses : List Int) : Int :=
  outputLoss + layerLosses.sum

/-- `FFN::EvaluateWithGradient(parameters, begin, gradient, batchSize)`
(lines 558-583): first calls `Evaluate(parameters, begin, batchSize, false)`
— which already includes every layer's `Loss()` — and then adds every
layer's `Loss()` a second time (lines 570-573) before running the backward
and gradient passes. -/
def ffnEvaluateWithGradient (outputLoss : Int) (layerLosses : List Int) : Int :=
  ffnEvaluate outputLoss layerLosses + layerLosses.sum

/-! ### FFN::ResetDeterministic / FFN::ResetData (ffn_impl.hpp, 151-161,
676-681) -/

/-- `FFN::ResetDeterministic` (lines 676-681): writes the constant `true`
into every layer's `Deterministic()` flag, ignoring the network-level
`deterministic` member. -/
def resetDeterministic (layerFlags : List Bool) : List Bool :=
  layerFlags.map (fun _ => true)

/-- The determinism handling of `FFN::ResetData` (lines 151-161), which
`Train` calls before delegating to the optimizer: the network-level flag is
assigned `false` (train mode) and then `ResetDeterministic` broadcasts.
Returns (network-level flag, per-layer flags). -/
def resetDataModes (layerFlags : List Bool) : Bool × List Bool :=
  (false, resetDeterministic layerFlags)

/-! ### FFN::Gradient(input, gradient) (ffn_impl.hpp, lines 737-752) -/

/-- The data each layer's `Gradient` call reads as its input argument. -/
inductive GradInput where
  | rawInput : GradInput
  | layerOutput : Nat → GradInput
deriving DecidableEq

/-- The data each layer's `Gradient` call reads as its error argument. -/
inductive GradDelta where
  | layerDelta : Nat → GradDelta
  | errorSignal : GradDelta
deriving DecidableEq

/-- The traversal of `FFN::Gradient(input, gradient)` for a network of `n`
layers, as the ordered list of (input, error) argument sources: first
`network.front()->Gradient(input, layerDeltas[1], ...)`; then for
`i = 1 .. n-2` the call
`network[i]->Gradient(layerOutputs[i-1], layerDeltas[i+1], ...)`; finally
`network.back()->Gradient(layerOutputs[n-2], error, ...)`. -/
def gradientCalls (n : Nat) : List (GradInput × GradDelta) :=
  (GradInput.rawInput, GradDelta.layerDelta 1) ::
    ((List.range (n - 2)).map
      (fun j => (GradInput.layerOutput j, GradDelta.layerDelta (j + 2)))
    ++ [(GradInput.layerOutput (n - 2), GradDelta.errorSignal)])

/-! ### FFN::serialize on load (ffn_impl.hpp, lines 758-806)

Opaque configuration objects (the output layer, the initialization rule,
the polymorphic layer tags) are modelled as `Nat` tokens; matrices as flat
`List Int`. -/

/-- The full FFN member state touched by `serialize`. -/
structure FFNState where
  outputLayer : Nat
  initializeRule : Nat
  network : List Nat
  parameters : List Int
  inputDimensions : List Nat
  reset : Bool
  predictors : List Int
  responses : List Int
  numFunctions : Nat
  layerOutputMatrix : List Int
  layerOutputs : List (List Int)
  deltaMatrix : List Int
  layerDeltas : List (List Int)
  gradientMatrix : List Int
  layerGradients : List (List Int)
  deterministic : Bool
deriving DecidableEq

/-- The fields read from the archive, in serialization order: output layer,
initialization rule, layer list, flat parameter buffer, input dimensions,
initialization flag `reset`. -/
structure FFNArchive where
  outputLayer : Nat
  initializeRule : Nat
  network : List Nat
  parameters : List Int
  inputDimensions : List Nat
  reset : Bool
deriving DecidableEq

/-- `FFN::serialize` in the loading direction (lines 764-806): the archived
fields overwrite the persisted members, then the session-only members are
cleared — `predictors`, `responses`, `numFunctions`, the three arena
matrices and their per-layer view lists (resized to empty views, one per
layer) — and `deterministic` is set to `true` (inference mode). -/
def ffnLoad (ar : FFNArchive) (st : FFNState) : FFNState :=
  { st with
    outputLayer := ar.outputLayer
    initializeRule := ar.initializeRule
    network := ar.network
    parameters := ar.parameters
    inputDimensions := ar.inputDimensions
    reset := ar.reset
    predictors := []
    responses := []
    numFunctions := 0
    layerOutputMatrix := []
    layerOutputs := List.replicate ar.network.length []
    deltaMatrix := []
    layerDeltas := List.replicate ar.network.length []
    gradientMatrix := []
    layerGradients := List.replicate ar.network.length []
    deterministic := true }

/-! ### DatasetMapper::Type (dataset_mapper_impl.hpp, lines 153-174) -/

/-- The column datatype stored per dimension. -/
inductive Datatype where
  | numeric
  | categorical
deriving DecidableEq

/-- The error kinds the mapper surfaces (which `std::exception` subtype is
thrown). -/
inductive MapperError where
  | invalidArgument
  | outOfRange
deriving DecidableEq

/-- `DatasetMapper::Type(dimension) const` (lines 153-165): throws
`std::invalid_argument` when `dimension >= types.size()`, otherwise returns
the stored entry. -/
def typeConst (types : List Datatype) (dimension : Nat) : Except MapperError Datatype :=
  if dimension ≥ types.length then
    .error .invalidArgument
  else
    .ok (types.getD dimension .numeric)

/-- `DatasetMapper::Type(dimension)` non-const (lines 167-174): when
`dimension >= types.size()` it calls
`types.resize(dimension + 1, Datatype::numeric)`, then returns (a mutable
reference to) entry `dimension`.  Modelled as the updated list together with
the value of that entry. -/
def typeNonConst (types : List Datatype) (dimension : Nat) : List Datatype × Datatype :=
  let newTypes :=
    if dimension ≥ types.length then
      types ++ List.replicate (dimension + 1 - types.length) .numeric
    else types
  (newTypes, newTypes.getD dimension .numeric)

/-! ### DatasetMapper::UnmapString / NumUnmappings (dataset_mapper_impl.hpp,
lines 83-132)

Mapped values are `double`s that may be NaN; we model them as an `Int` key
or the NaN marker.  `std::nexttoward(std::numeric_limits<T>::max(), 0)` —
the largest representable value below the maximum, substituted for NaN
before any lookup — is modelled by the distinguished key
`nanSubstituteKey`.  The `maps` member (dimension → (forward map, reverse
map)) is modelled by its reverse half as an association list from dimension
to an association list from key to the list of unmapping strings. -/

/-- A mapped value: either NaN or an ordinary key. -/
inductive MappedVal where
  | nan : MappedVal
  | val : Int → MappedVal
deriving DecidableEq

/-- Stand-in key for `std::nexttoward(std::numeric_limits<T>::max(), 0)`. -/
def nanSubstituteKey : Int := 2 ^ 63

/-- The key actually used for lookup: the NaN substitution applied by both
`UnmapString` (lines 92-94) and `NumUnmappings` (lines 125-129). -/
def usedKey : MappedVal → Int
  | .nan => nanSubstituteKey
  | .val q => q

/-- Reverse map of one dimension: key → unmapping strings. -/
def lookupKey (revMap : List (Int × List String)) (k : Int) : Option (List String) :=
  (revMap.find? (fun p => p.1 == k)).map Prod.snd

/-- `maps.at(dimension)`, restricted to the reverse half (`.second`). -/
def mapsAt (maps : List (Nat × List (Int × List String))) (d : Nat) :
    Option (List (Int × List String)) :=
  (maps.find? (fun p => p.1 == d)).map Prod.snd

/-- `DatasetMapper::UnmapString(value, dimension, unmappingIndex)` (lines
83-115): substitutes the NaN key, then `maps.at(dimension)` (throws
`std::out_of_range` when the dimension has no entry), then throws
`std::invalid_argument` when the key has no reverse mapping
(`count(usedValue) == 0`) or when `unmappingIndex` is not below the number
of unmappings; otherwise returns the `unmappingIndex`-th string. -/
def unmapString (maps : List (Nat × List (Int × List String)))
    (value : MappedVal) (dimension unmappingIndex : Nat) :
    Except MapperError String :=
  let usedValue := usedKey value
  match mapsAt maps dimension with
  | none => .error .outOfRange
  | some revMap =>
      match lookupKey revMap usedValue with
      | none => .error .invalidArgument
      | some unmappings =>
          if unmappingIndex ≥ unmappings.length then
            .error .invalidArgument
          else
            .ok (unmappings.getD unmappingIndex "")

/-- `DatasetMapper::NumUnmappings(value, dimension)` (lines 117-132):
substitutes the NaN key, then returns
`maps.at(dimension).second.at(key).size()`; both `.at` calls throw
`std::out_of_range` on a missing entry. -/
def numUnmappings (maps : List (Nat × List (Int × List String)))
    (value : MappedVal) (dimension : Nat) : Except MapperError Nat :=
  let usedValue := usedKey value
  match mapsAt maps dimension with
  | none => .error .outOfRange
  | some revMap =>
      match lookupKey revMap usedValue with
      | none => .error .outOfRange
      | some unmappings => .ok unmappings.length

/-! ## Helper lemmas -/

theorem setLayerMemoryLoop_views (nElem : Nat) (ws : List Nat) (off : Nat) :
    (setLayerMemoryLoop nElem ws off).1 =
      (List.range ws.length).map (fun i => (off + (ws.take i).sum, ws.getD i 0)) := by
  induction ws generalizing off with
  | nil => simp [setLayerMemoryLoop]
  | cons w ws ih =>
      simp only [setLayerMemoryLoop, ih (off + w), List.length_cons,
        List.range_succ_eq_map, List.map_cons, List.map_map]
      rw [List.cons_eq_cons]
      refine ⟨by simp, ?_⟩
      apply List.map_congr_left
      intro i _
      simp [List.take_succ_cons, Nat.add_assoc]

theorem setLayerMemoryLoop_final (nElem : Nat) (ws : List Nat) (off : Nat) :
    (setLayerMemoryLoop nElem ws off).2.1 = off + ws.sum := by
  induction ws generalizing off with
  | nil => simp [setLayerMemoryLoop]
  | cons w ws ih => simp [setLayerMemoryLoop, ih (off + w), Nat.add_assoc]

theorem setLayerMemoryLoop_ok_of_le (nElem : Nat) (ws : List Nat) (off : Nat)
    (h : off + ws.sum ≤ nElem) :
    (setLayerMemoryLoop nElem ws off).2.2 = true := by
  induction ws generalizing off with
  | nil => simp [setLayerMemoryLoop]
  | cons w ws ih =>
      have hsum : off + w + ws.sum ≤ nElem := by
        simpa [Nat.add_assoc] using h
      have hstep : off + w ≤ nElem :=
        le_trans (Nat.le_add_right _ _) hsum
      simp [setLayerMemoryLoop, hstep, ih (off + w) hsum]

theorem setLayerMemoryLoop_offset_lb (nElem : Nat) (ws : List Nat) (off : Nat) :
    ∀ v ∈ (setLayerMemoryLoop nElem ws off).1, off ≤ v.1 := by
  induction ws generalizing off with
  | nil => simp [setLayerMemoryLoop]
  | cons w ws ih =>
      intro v hv
      simp only [setLayerMemoryLoop, List.mem_cons] at hv
      rcases hv with hv | hv
      · simp [hv]
      · exact le_trans (Nat.le_add_right off w) (ih (off + w) v hv)

theorem setLayerMemoryLoop_ordered (nElem : Nat) (ws : List Nat) (off : Nat) :
    List.Pairwise (fun a b => a.1 + a.2 ≤ b.1) (setLayerMemoryLoop nElem ws off).1 := by
  induction ws generalizing off with
  | nil => simp [setLayerMemoryLoop]
  | cons w ws ih =>
      simp only [setLayerMemoryLoop, List.pairwise_cons]
      refine ⟨?_, ih (off + w)⟩
      intro v hv
      exact setLayerMemoryLoop_offset_lb nElem ws (off + w) v hv

theorem setLayerMemoryLoop_cover (nElem : Nat) (ws : List Nat) (off p : Nat)
    (h1 : off ≤ p) (h2 : p < off + ws.sum) :
    ∃ v ∈ (setLayerMemoryLoop nElem ws off).1, v.1 ≤ p ∧ p < v.1 + v.2 := by
  induction ws generalizing off with
  | nil => simp only [List.sum_nil] at h2; omega
  | cons w ws ih =>
      by_cases hp : p < off + w
      · exact ⟨(off, w), by simp [setLayerMemoryLoop], h1, hp⟩
      · have h1' : off + w ≤ p := Nat.le_of_not_lt hp
        have h2' : p < off + w + ws.sum := by
          simpa [Nat.add_assoc] using h2
        obtain ⟨v, hv, hv1, hv2⟩ := ih (off + w) h1' h2'
        exact ⟨v, by simp [setLayerMemoryLoop, hv], hv1, hv2⟩

theorem setLayerMemoryLoop_size_mem (nElem : Nat) (ws : List Nat) (off : Nat) :
    ∀ v ∈ (setLayerMemoryLoop nElem ws off).1, v.2 ∈ ws := by
  induction ws generalizing off with
  | nil => simp [setLayerMemoryLoop]
  | cons w ws ih =>
      intro v hv
      simp only [setLayerMemoryLoop, List.mem_cons] at hv
      rcases hv with hv | hv
      · simp [hv]
      · exact List.mem_cons_of_mem w (ih (off + w) v hv)

theorem forwardAliasLoop_bound (batchSize : Nat) (outSizes : List Nat) (start : Nat) :
    ∀ v ∈ forwardAliasLoop batchSize outSizes start,
      v.1 + batchSize * v.2.1 ≤ start + batchSize * outSizes.sum := by
  induction outSizes generalizing start with
  | nil => simp [forwardAliasLoop]
  | cons s rest ih =>
      intro v hv
      simp only [forwardAliasLoop, List.mem_cons] at hv
      rcases hv with hv | hv
      · subst hv
        simp only [List.sum_cons, Nat.mul_add]
        omega
      · have hrec := ih (start + batchSize * s) v hv
        simp only [List.sum_cons, Nat.mul_add] at hrec ⊢
        omega

theorem gradientCalls_length (n : Nat) (h : 2 ≤ n) :
    (gradientCalls n).length = n := by
  simp only [gradientCalls, List.length_cons, List.length_append,
    List.length_map, List.length_range, List.length_nil]
  omega

theorem gradientCalls_middle (n i : Nat) (h0 : 0 < i) (h1 : i < n - 1) :
    (gradientCalls n).get? i =
      some (GradInput.layerOutput (i - 1), GradDelta.layerDelta (i + 1)) := by
  obtain ⟨j, rfl⟩ : ∃ j, i = j + 1 := ⟨i - 1, by omega⟩
  simp only [gradientCalls, List.get?_cons_succ]
  rw [List.get?_append (by simp; omega)]
  rw [List.get?_map, List.get?_range (by omega)]
  simp

theorem gradientCalls_last (n : Nat) (h : 2 ≤ n) :
    (gradientCalls n).get? (n - 1) =
      some (GradInput.layerOutput (n - 2), GradDelta.errorSignal) := by
  obtain ⟨m, rfl⟩ : ∃ m, n = m + 2 := ⟨n - 2, by omega⟩
  have hidx : m + 2 - 1 = m + 1 := by omega
  simp only [gradientCalls, hidx, List.get?_cons_succ]
  rw [List.get?_append_right (by simp)]
  simp

theorem getD_replicate_self {α : Type} (k i : Nat) (a : α) :
    (List.replicate k a).getD i a = a := by
  induction k generalizing i with
  | zero => simp
  | succ k ih =>
      cases i with
      | zero => simp [List.replicate_succ]
      | succ i => simpa [List.replicate_succ] using ih i

/-! ## Claim theorems -/

/-- C1 (amended): for every layer sequence and non-empty parameter buffer,
`SetLayerMemory` gives layer `i` a view of exactly its `WeightSize()` at
offset `sum of WeightSize() of layers 0..i-1`; the final running offset is
the total weight size, and the closing assertion holds iff the buffer's
element count equals that sum; the views are ordered and non-overlapping
(each ends no later than the next begins), so the offsets are non-decreasing
— and strictly increasing whenever every layer has positive `WeightSize()`
(with a zero-size layer two consecutive offsets coincide, which is the one
correction to the claim) — and when the assertion holds the views cover the
whole buffer. -/
theorem C1_setLayerMemory_layout (ws : List Nat) (nElem : Nat) (h : 0 < nElem) :
    (setLayerMemory ws nElem).1 =
      (List.range ws.length).map (fun i => ((ws.take i).sum, ws.getD i 0))
    ∧ (setLayerMemory ws nElem).2.1 = ws.sum
    ∧ ((setLayerMemory ws nElem).2.2 = true ↔ nElem = ws.sum)
    ∧ List.Pairwise (fun a b => a.1 + a.2 ≤ b.1) (setLayerMemory ws nElem).1
    ∧ ((∀ w ∈ ws, 0 < w) →
        List.Pairwise (fun a b => a < b) ((setLayerMemory ws nElem).1.map Prod.fst))
    ∧ (nElem = ws.sum →
        ∀ p, p < nElem →
          ∃ v ∈ (setLayerMemory ws nElem).1, v.1 ≤ p ∧ p < v.1 + v.2) := by
  refine ⟨?_, ?_, ?_, ?_, ?_, ?_⟩
  · simpa using setLayerMemoryLoop_views nElem ws 0
  · simpa [setLayerMemory] using setLayerMemoryLoop_final nElem ws 0
  · constructor
    · intro hok
      simp only [setLayerMemory, Bool.and_eq_true, beq_iff_eq] at hok
      have hfin := hok.2
      rw [setLayerMemoryLoop_final nElem ws 0] at hfin
      omega
    · intro heq
      subst heq
      have hok := setLayerMemoryLoop_ok_of_le (ws.sum) ws 0 (by omega)
      simp [setLayerMemory, hok, setLayerMemoryLoop_final (ws.sum) ws 0]
  · exact setLayerMemoryLoop_ordered nElem ws 0
  · intro hpos
    have hord := setLayerMemoryLoop_ordered nElem ws 0
    rw [List.pairwise_map]
    refine (List.Pairwise.and_mem.mp hord).imp ?_
    rintro a b ⟨ha, _, hab⟩
    have ha2 : 0 < a.2 := hpos _ (setLayerMemoryLoop_size_mem nElem ws 0 a ha)
    omega
  · intro heq p hp
    exact setLayerMemoryLoop_cover nElem ws 0 p (Nat.zero_le p) (by omega)

/-- Counterexample for C1 as stated: with weight sizes `[0, 1]` and a
non-empty 1-element parameter buffer, layers 0 and 1 both receive offset 0,
so the assigned offsets `[0, 0]` are not strictly increasing. -/
theorem C1_setLayerMemory_layout_counterexample :
    0 < 1
    ∧ (setLayerMemory [0, 1] 1).1.map Prod.fst = [0, 0]
    ∧ ¬ List.Pairwise (fun a b : Nat => a < b)
        ((setLayerMemory [0, 1] 1).1.map Prod.fst) := by
  decide

/-- Witness for C1 at weight sizes `[2, 3]` and a 5-element buffer. -/
theorem C1_setLayerMemory_layout_witness :
    0 < 5
    ∧ ((setLayerMemory [2, 3] 5).1 =
        (List.range ([2, 3] : List Nat).length).map
          (fun i => ((([2, 3] : List Nat).take i).sum, ([2, 3] : List Nat).getD i 0))
      ∧ (setLayerMemory [2, 3] 5).2.1 = ([2, 3] : List Nat).sum
      ∧ ((setLayerMemory [2, 3] 5).2.2 = true ↔ 5 = ([2, 3] : List Nat).sum)
      ∧ List.Pairwise (fun a b => a.1 + a.2 ≤ b.1) (setLayerMemory [2, 3] 5).1
      ∧ ((∀ w ∈ ([2, 3] : List Nat), 0 < w) →
          List.Pairwise (fun a b => a < b)
            ((setLayerMemory [2, 3] 5).1.map Prod.fst))
      ∧ (5 = ([2, 3] : List Nat).sum →
          ∀ p, p < 5 →
            ∃ v ∈ (setLayerMemory [2, 3] 5).1, v.1 ≤ p ∧ p < v.1 + v.2)) :=
  ⟨by decide, C1_setLayerMemory_layout [2, 3] 5 (by decide)⟩

/-- C2: the output arena is reallocated to exactly
`batchSize * totalOutputSize` elements iff the requested size exceeds the
current element count or is strictly below one tenth of it; otherwise the
existing allocation is kept, and the per-layer views — functions of the
output sizes and the batch size only — are re-sliced within the requested
extent, hence inside the retained buffer. -/
theorem C2_forward_arena_hysteresis (b cap : Nat) (outSizes : List Nat) :
    (forwardRealloc b (totalOutputSizeOf outSizes) cap = true
      ↔ (b * totalOutputSizeOf outSizes > cap
         ∨ b * totalOutputSizeOf outSizes < cap / 10))
    ∧ (forwardRealloc b (totalOutputSizeOf outSizes) cap = true →
        initializeForwardPassMemory b (totalOutputSizeOf outSizes) cap
          = b * totalOutputSizeOf outSizes)
    ∧ (forwardRealloc b (totalOutputSizeOf outSizes) cap = false →
        initializeForwardPassMemory b (totalOutputSizeOf outSizes) cap = cap)
    ∧ (cap / 10 ≤ b * totalOutputSizeOf outSizes →
        b * totalOutputSizeOf outSizes ≤ cap →
        initializeForwardPassMemory b (totalOutputSizeOf outSizes) cap = cap)
    ∧ (∀ v ∈ forwardAliasLoop b outSizes 0,
        v.1 + b * v.2.1 ≤ b * totalOutputSizeOf outSizes) := by
  refine ⟨?_, ?_, ?_, ?_, ?_⟩
  · simp [forwardRealloc]
  · intro hr
    simp [initializeForwardPassMemory, hr]
  · intro hr
    simp [initializeForwardPassMemory, hr]
  · intro h1 h2
    have hr : forwardRealloc b (totalOutputSizeOf outSizes) cap = false := by
      simp only [forwardRealloc, Bool.or_eq_false_iff, decide_eq_false_iff_not]
      omega
    simp [initializeForwardPassMemory, hr]
  · simpa using forwardAliasLoop_bound b outSizes 0

/-- C3: the delta-arena shrink test of `InitializeBackwardPassMemory` reads
the OUTPUT arena's element count, not the delta arena's.  With batch size 1,
total input size 50, a 100-element delta arena and a 1000-element output
arena, the code reallocates (50 < 1000 / 10) although the claimed policy —
keyed on the delta arena's own capacity — keeps the buffer
(100 / 10 ≤ 50 ≤ 100).  Moreover `totalInputSize` as maintained by the code
is the input size plus EVERY layer's output size (the loop guard
`i < network.size()` is always true), so with input dimensions `[3]` and a
single layer of output size 5 it is 8, not the 3 that "sum of per-layer
input sizes" would give. -/
theorem C3_backward_realloc_uses_output_capacity :
    backwardRealloc 1 50 100 1000 = true
    ∧ backwardReallocClaim 1 50 100 = false
    ∧ initializeBackwardPassMemory 1 50 100 1000 = 50
    ∧ totalInputSizeOf [3] [5] = 8
    ∧ ([3] : List Nat).sum + ([5] : List Nat).dropLast.sum = 3 := by
  decide

/-- C4: the input-shape assertion of `FFN::Forward` compares `inputs.n_rows`
with the SUM of the declared per-axis dimensions (`std::accumulate` with
initial value 0), not their product: for declared dimensions `[2, 3]` and an
input of 6 rows the product matches (2 * 3 = 6) but the assertion fails
(2 + 3 = 5 ≠ 6).  When the dimensions are unset the flat default makes the
check pass. -/
theorem C4_shape_check_sums_axes :
    forwardShapeCheck [2, 3] 6 = false
    ∧ ([2, 3] : List Nat).prod = 6
    ∧ forwardShapeCheck [] 7 = true := by
  decide

/-- C5: `EvaluateWithGradient` adds every layer's `Loss()` on top of the
value returned by `Evaluate(parameters, begin, batchSize, false)`, which
already contains those losses — so for a single layer with `Loss() = 1` and
output-layer loss 0 it returns 2 while `Evaluate` returns 1. -/
theorem C5_layer_losses_double_counted :
    ffnEvaluateWithGradient 0 [1] = 2
    ∧ ffnEvaluate 0 [1] = 1
    ∧ ffnEvaluateWithGradient 0 [1] ≠ ffnEvaluate 0 [1] := by
  decide

/-- C6: after `ResetData` (invoked by `Train`), the network-level flag is
`false` (train mode) but `ResetDeterministic` has written `true` into every
layer's `Deterministic()` flag — the broadcast forces inference behavior
instead of propagating the new mode. -/
theorem C6_broadcast_forces_layers_deterministic :
    (resetDataModes [false, true]).1 = false
    ∧ (resetDataModes [false, true]).2 = [true, true] := by
  decide

/-- C7: for a network of `n ≥ 2` layers, `FFN::Gradient` issues exactly `n`
calls; call 0 reads the raw input and the delta of layer 1; call `i` with
`0 < i < n - 1` reads layer `i-1`'s forward output and the delta of layer
`i+1`; call `n-1` reads layer `n-2`'s forward output and the external
loss-error signal. -/
theorem C7_gradient_wiring (n : Nat) (h : 2 ≤ n) :
    (gradientCalls n).length = n
    ∧ (gradientCalls n).get? 0 = some (GradInput.rawInput, GradDelta.layerDelta 1)
    ∧ (∀ i, 0 < i → i < n - 1 →
        (gradientCalls n).get? i =
          some (GradInput.layerOutput (i - 1), GradDelta.layerDelta (i + 1)))
    ∧ (gradientCalls n).get? (n - 1) =
        some (GradInput.layerOutput (n - 2), GradDelta.errorSignal) := by
  refine ⟨gradientCalls_length n h, rfl, ?_, gradientCalls_last n h⟩
  intro i h0 h1
  exact gradientCalls_middle n i h0 h1

/-- Witness for C7 at a 4-layer network. -/
theorem C7_gradient_wiring_witness :
    2 ≤ 4
    ∧ ((gradientCalls 4).length = 4
      ∧ (gradientCalls 4).get? 0 = some (GradInput.rawInput, GradDelta.layerDelta 1)
      ∧ (∀ i, 0 < i → i < 4 - 1 →
          (gradientCalls 4).get? i =
            some (GradInput.layerOutput (i - 1), GradDelta.layerDelta (i + 1)))
      ∧ (gradientCalls 4).get? (4 - 1) =
          some (GradInput.layerOutput (4 - 2), GradDelta.errorSignal)) :=
  ⟨by decide, C7_gradient_wiring 4 (by decide)⟩

/-- C8: after a load, the session-only members are discarded — `predictors`
and `responses` empty, `numFunctions` zero, the three arena matrices cleared
and the per-layer view lists reset to one empty view per layer — the
determinism flag is forced to `true` (inference), and the persisted members
hold exactly the archived values. -/
theorem C8_load_state (ar : FFNArchive) (st : FFNState) :
    (ffnLoad ar st).predictors = []
    ∧ (ffnLoad ar st).responses = []
    ∧ (ffnLoad ar st).numFunctions = 0
    ∧ (ffnLoad ar st).layerOutputMatrix = []
    ∧ (ffnLoad ar st).deltaMatrix = []
    ∧ (ffnLoad ar st).gradientMatrix = []
    ∧ (ffnLoad ar st).layerOutputs = List.replicate ar.network.length []
    ∧ (ffnLoad ar st).layerDeltas = List.replicate ar.network.length []
    ∧ (ffnLoad ar st).layerGradients = List.replicate ar.network.length []
    ∧ (ffnLoad ar st).deterministic = true
    ∧ (ffnLoad ar st).outputLayer = ar.outputLayer
    ∧ (ffnLoad ar st).initializeRule = ar.initializeRule
    ∧ (ffnLoad ar st).network = ar.network
    ∧ (ffnLoad ar st).parameters = ar.parameters
    ∧ (ffnLoad ar st).inputDimensions = ar.inputDimensions
    ∧ (ffnLoad ar st).reset = ar.reset :=
  ⟨rfl, rfl, rfl, rfl, rfl, rfl, rfl, rfl, rfl, rfl, rfl, rfl, rfl, rfl, rfl, rfl⟩

/-- C9: the const `Type(d)` fails iff `d ≥ Dimensionality()` and otherwise
returns the stored type; the non-const `Type(d)` never fails — when
`d ≥ Dimensionality()` it grows the list to `d + 1` entries filled with
`numeric` (so the dimensionality becomes `d + 1`) and yields entry `d`
(then `numeric`), and otherwise leaves the list unchanged and yields the
stored entry. -/
theorem C9_type_accessors (types : List Datatype) (d : Nat) :
    (typeConst types d = .error .invalidArgument ↔ types.length ≤ d)
    ∧ (d < types.length → typeConst types d = .ok (types.getD d .numeric))
    ∧ (types.length ≤ d → (typeNonConst types d).1.length = d + 1)
    ∧ (d < types.length → (typeNonConst types d).1 = types)
    ∧ (types.length ≤ d →
        ∀ j, types.length ≤ j → j ≤ d →
          (typeNonConst types d).1.getD j .numeric = .numeric)
    ∧ ((typeNonConst types d).2 = (typeNonConst types d).1.getD d .numeric)
    ∧ (types.length ≤ d → (typeNonConst types d).2 = .numeric) := by
  have hgrow : types.length ≤ d →
      (typeNonConst types d).1 =
        types ++ List.replicate (d + 1 - types.length) .numeric := by
    intro hd
    simp [typeNonConst, hd]
  refine ⟨?_, ?_, ?_, ?_, ?_, rfl, ?_⟩
  · by_cases hd : types.length ≤ d
    · simp [typeConst, hd]
    · have hd2 : ¬ (d ≥ types.length) := hd
      simp [typeConst, hd2, hd]
  · intro hd
    have hd2 : ¬ (d ≥ types.length) := Nat.not_le_of_lt hd
    simp [typeConst, hd2]
  · intro hd
    rw [hgrow hd, List.length_append, List.length_replicate]
    omega
  · intro hd
    have hd2 : ¬ (types.length ≤ d) := Nat.not_le_of_lt hd
    simp [typeNonConst, hd2]
  · intro hd j hj1 hj2
    rw [hgrow hd, List.getD_append_right _ _ _ _ hj1]
    exact getD_replicate_self _ _ _
  · intro hd
    show (typeNonConst types d).1.getD d .numeric = .numeric
    rw [hgrow hd, List.getD_append_right _ _ _ _ hd]
    exact getD_replicate_self _ _ _

/-- C10 (amended): both `UnmapString` and `NumUnmappings` replace NaN by the
same substitute key before lookup, so they agree on which key a NaN value
denotes; when dimension `d` has a map entry, `UnmapString` throws
`std::invalid_argument` exactly when the (possibly substituted) key has no
reverse mapping or the unmapping index is out of range, and otherwise
returns the `k`-th unmapping; when dimension `d` has no map entry at all,
both operations throw `std::out_of_range` instead (the correction: the
claim predicted `std::invalid_argument` there as well). -/
theorem C10_unmap_error_classification
    (maps : List (Nat × List (Int × List String)))
    (v : MappedVal) (d k : Nat) :
    unmapString maps .nan d k = unmapString maps (.val nanSubstituteKey) d k
    ∧ numUnmappings maps .nan d = numUnmappings maps (.val nanSubstituteKey) d
    ∧ (mapsAt maps d = none →
        unmapString maps v d k = .error .outOfRange
        ∧ numUnmappings maps v d = .error .outOfRange)
    ∧ (∀ revMap, mapsAt maps d = some revMap →
        (unmapString maps v d k = .error .invalidArgument
          ↔ lookupKey revMap (usedKey v) = none
            ∨ ∃ l, lookupKey revMap (usedKey v) = some l ∧ l.length ≤ k)
        ∧ (∀ l, lookupKey revMap (usedKey v) = some l → k < l.length →
            unmapString maps v d k = .ok (l.getD k ""))) := by
  refine ⟨rfl, rfl, ?_, ?_⟩
  · intro hnone
    constructor
    · simp [unmapString, hnone]
    · simp [numUnmappings, hnone]
  · intro revMap hsome
    constructor
    · simp only [unmapString, hsome]
      cases hk : lookupKey revMap (usedKey v) with
      | none => simp
      | some l =>
          by_cases hlen : l.length ≤ k
          · simp [hlen]
          · simp [hlen]
    · intro l hl hk
      simp only [unmapString, hsome, hl]
      rw [if_neg (by omega)]

/-- Counterexample for C10 as stated: with an empty map table, dimension 0
has no entry at all, so the (unsubstituted) key 0 trivially has no mapping
in dimension 0 — yet `UnmapString` throws `std::out_of_range` (from
`maps.at`), not the `std::invalid_argument` the claim predicts. -/
theorem C10_unmap_error_counterexample :
    mapsAt [] 0 = none
    ∧ unmapString [] (MappedVal.val 0) 0 0 = Except.error MapperError.outOfRange
    ∧ unmapString [] (MappedVal.val 0) 0 0 ≠ Except.error MapperError.invalidArgument := by
  refine ⟨rfl, rfl, ?_⟩
  intro hcontra
  exact absurd (Except.error.inj hcontra) (by decide)

end Mlpack

